import Mathlib

/-!
Verification of the natural-language specification of `okx_.py`
(twojded/okx_withdrawals) against a shallow embedding of the script.

The script exports the full OKX withdrawal history through deep backward
pagination (`dump_withdrawals`), filters records by time window and address
substrings, and streams them to CSV or JSONL.  The embedding below translates
the relevant parts of the source:

* records are the JSON objects of the server response, modelled as ordered
  association lists of string keys to string values (the structured `addrEx`
  value is modelled as its already-stringified form: only key structure,
  timestamps and string-valued address fields bear on the verified claims);
* the pagination loop (src lines 181-281) becomes a step function on an
  explicit state plus a driver over a scripted list of server responses;
* file output becomes an explicit event trace (open / header / row / flush /
  close), so resource-handling claims are statements about the trace;
* the retry machinery lives in the `urllib3` dependency, not in this
  repository: it is modelled from the spec's description of the retry policy,
  parameterised by the literal configuration values of `build_session`
  (src lines 77-90).
-/

set_option maxHeartbeats 1000000

namespace OkxDump

/-- A withdrawal record: one JSON object of the server response, modelled as an
ordered association list from field names to (stringified) values
(src treats records as opaque dicts; key order is JSON order). -/
abbrev Record : Type := List (String × String)

/-- Lookup of a key in a record, mirroring Python `r.get(k, ...)` returning
`None`-or-value (first occurrence wins, as in a dict built from JSON). -/
def rlookup (r : Record) (k : String) : Option String :=
  match r.find? (fun p => p.1 == k) with
  | some p => some p.2
  | none => none

/-- Python `r.get(k, dflt)`. -/
def rget (r : Record) (k dflt : String) : String :=
  match rlookup r k with
  | some v => v
  | none => dflt

/-- Accumulating decimal digits into a natural number. -/
def digitsToNat (acc : Nat) : List Char → Nat
  | [] => acc
  | c :: cs => digitsToNat (acc * 10 + (c.toNat - 48)) cs

/-- Python `int(s)` on the well-formed decimal strings the server sends
(an optional leading minus sign followed by digits; `int` raises on anything
else, which no verified claim exercises). -/
def strToInt (s : String) : Int :=
  match s.data with
  | '-' :: cs => - (digitsToNat 0 cs : Int)
  | cs => (digitsToNat 0 cs : Int)

/-- The timestamp of a record, src line 206 and 263: `int(r.get("ts", "0"))`.
A missing `ts` field defaults to the string "0", hence timestamp 0. -/
def tsOf (r : Record) : Int :=
  strToInt (rget r "ts" "0")

/-- src line 59: `LIMIT = 100`. -/
def LIMIT : Nat := 100

/-- src lines 233-238: the fixed canonical column list `base_keys`. -/
def base_keys : List String :=
  ["wdId", "ts", "ccy", "amt", "state", "fee", "feeCcy",
   "chain", "txId", "to", "toAddrType", "from", "areaCodeFrom",
   "areaCodeTo", "nonTradableAsset", "clientId", "note", "tag",
   "pmtId", "memo", "addrEx"]

/-- Boolean list membership for strings (used to model the first-seen
deduplication of Python `dict.fromkeys`). -/
def memB (k : String) : List String → Bool
  | [] => false
  | x :: xs => k == x || memB k xs

/-- First-occurrence deduplication with an accumulator of already-seen keys:
the order-preserving behaviour of `list(dict.fromkeys(...))` at src line 240. -/
def dedupFirst (seen : List String) : List String → List String
  | [] => []
  | k :: ks => if memB k seen then dedupFirst seen ks else k :: dedupFirst (k :: seen) ks

/-- The seen-set after feeding a list of keys through `dedupFirst`. -/
def seenPlus (seen : List String) : List String → List String
  | [] => seen
  | k :: ks => if memB k seen then seenPlus seen ks else seenPlus (k :: seen) ks

/-- src line 240: `[k for r in rows for k in r.keys()]`. -/
def observedKeys (rows : List Record) : List String :=
  (rows.map (fun r => r.map Prod.fst)).flatten

/-- src line 240: `list(dict.fromkeys([k for r in rows for k in r.keys()] + base_keys))`:
the CSV field order derived from the batch `rows`. -/
def deriveFieldOrder (rows : List Record) : List String :=
  dedupFirst [] (observedKeys rows ++ base_keys)

/-- src lines 134-137 (`write_csv_row`): each written row is normalised to the
field order, a missing field rendered as the empty string; `DictWriter` then
emits the cells in field order. -/
def csvRowCells (field_order : List String) (r : Record) : List String :=
  field_order.map (fun k => rget r k "")

/-- Lowercasing of a string, character by character: the model of Python
`str.lower()` (they agree on ASCII, which is all the claims exercise). -/
def lowerStr (s : String) : String :=
  String.mk (s.data.map Char.toLower)

/-- src lines 215-222: the address-bearing fields of a record. -/
def addrFields (r : Record) : List String :=
  [rget r "to" "", rget r "toAddr" "", rget r "addr" "",
   rget r "from" "", rget r "memo" "", rget r "tag" ""]

/-- src line 223: `" ".join(fields).lower()`. -/
def concatAddr (r : Record) : String :=
  lowerStr (String.intercalate " " (addrFields r))

/-- Boolean test that `n` is a prefix of `h` (over character lists). -/
def prefB : List Char → List Char → Bool
  | [], _ => true
  | _ :: _, [] => false
  | a :: as, b :: bs => a == b && prefB as bs

/-- Boolean contiguous-substring test, the model of Python `a in s`. -/
def substrB (n : List Char) : List Char → Bool
  | [] => n.isEmpty
  | c :: t => prefB n (c :: t) || substrB n t

/-- src lines 213-227 (`row_has_addr`): a record matches when some nonempty
entry of the (already lowercased) address set occurs in the lowercased
concatenation of its address fields (`a and a in s_all`). -/
def row_has_addr (aset : List String) (r : Record) : Bool :=
  aset.any (fun a => (!(a == "")) && substrB a.data (concatAddr r).data)

/-- src lines 204-208: with a start bound, keep records with `ts >= start_ms`. -/
def applyTimeFilter (startMs : Option Int) (rows : List Record) : List Record :=
  match startMs with
  | none => rows
  | some s => rows.filter (fun r => s ≤ tsOf r)

/-- src lines 210-228: with a truthy (present and nonempty) address set, keep
records matched by `row_has_addr` against the lowercased entries
(`aset = {a.lower() for a in addr_set}`); `None` or an empty set filters
nothing. -/
def applyAddrFilter (addrSet : Option (List String)) (rows : List Record) : List Record :=
  match addrSet with
  | none => rows
  | some l => if l.isEmpty then rows else rows.filter (fun r => row_has_addr (l.map lowerStr) r)

/-- The run configuration handed to `dump_withdrawals` (src lines 140-147)
by the excluded CLI collaborator. -/
structure Config where
  fmt : String
  ccy : Option String
  startMs : Option Int
  endMs : Option Int
  addrSet : Option (List String)
deriving DecidableEq

/-- The emission filter applied to one fetched batch: time filter first
(src 204-208), then address filter (src 210-228). -/
def filteredBatch (cfg : Config) (rows_all : List Record) : List Record :=
  applyAddrFilter cfg.addrSet (applyTimeFilter cfg.startMs rows_all)

/-- src lines 186-195: the request parameters of one page request.  `before`
is sent only on the first request (no cursor yet) and only when an end bound
is configured; `after` carries the cursor. -/
structure ReqParams where
  limit : String
  ccy : Option String
  before : Option String
  after : Option String
deriving DecidableEq

def buildParams (cfg : Config) (afterCursor : Option Int) : ReqParams :=
  { limit := toString LIMIT
    ccy := cfg.ccy
    before := match afterCursor, cfg.endMs with
      | none, some e => some (toString e)
      | _, _ => none
    after := afterCursor.map (fun c => toString c) }

/-- One scripted server response: either the `data` list of a successful call,
or a raised error (HTTP failure after retries, or an OKX error envelope,
src lines 109-113). -/
inductive Resp where
  | ok (rows : List Record)
  | err (msg : String)

/-- The observable file-handle events of a run. -/
inductive FileEvent where
  | opened
  | wroteHeader (cols : List String)
  | wroteRow (cells : List String)
  | wroteJson (r : Record)
  | flushed
  | closed
deriving DecidableEq

/-- The mutable state of the pagination loop (src lines 168-183), extended
with observation traces: issued request parameters, file events, and the
emitted (filtered) batches. -/
structure St where
  afterCursor : Option Int
  saved : Nat
  pageIdx : Nat
  fieldOrder : List String
  requests : Nat
  paramsTrace : List ReqParams
  events : List FileEvent
  emitted : List (List Record)

def initSt : St :=
  { afterCursor := none, saved := 0, pageIdx := 0, fieldOrder := [],
    requests := 0, paramsTrace := [], events := [], emitted := [] }

/-- Issue one request: build the parameters from the current cursor and count
the request (src lines 186-197). -/
def issueReq (cfg : Config) (st : St) : St :=
  { st with
      requests := st.requests + 1
      paramsTrace := st.paramsTrace ++ [buildParams cfg st.afterCursor] }

/-- The minimum timestamp of a batch, src line 263:
`min(int(r.get("ts", "0")) for r in rows_all)` (guarded nonempty in the loop). -/
def minTs (rows : List Record) : Int :=
  match rows.map tsOf with
  | [] => 0
  | t :: ts => ts.foldl min t

/-- The body of the loop for a nonempty fetched batch, src lines 204-267:
filter for emission, derive the field order and write the header while no
record has been saved yet, write the rows, update counters, and move the
cursor to `min ts - 1` computed over the UNFILTERED batch. -/
def stepBatch (cfg : Config) (st : St) (rows_all : List Record) : St :=
  let rows := filteredBatch cfg rows_all
  let fo := if st.saved = 0 then deriveFieldOrder rows else st.fieldOrder
  let headerEvs : List FileEvent :=
    if st.saved = 0 ∧ cfg.fmt = "csv" then [FileEvent.wroteHeader fo] else []
  let rowEvs : List FileEvent :=
    if cfg.fmt = "csv" then rows.map (fun r => FileEvent.wroteRow (csvRowCells fo r))
    else rows.map (fun r => FileEvent.wroteJson r)
  { st with
      fieldOrder := fo
      events := st.events ++ headerEvs ++ rowEvs
      saved := st.saved + rows.length
      pageIdx := st.pageIdx + 1
      afterCursor := some (minTs rows_all - 1)
      emitted := st.emitted ++ [rows] }

/-- src lines 269-271: after the cursor update, stop when a start bound is
configured and the cursor has moved below it. -/
def earlyStopB (cfg : Config) (st : St) : Bool :=
  match cfg.startMs, st.afterCursor with
  | some s, some c => decide (c < s)
  | _, _ => false

/-- How a run of the loop ended. -/
inductive StopReason where
  | exhausted
  | earlyStop
  | apiError
  | scriptEnded
  | configError
deriving DecidableEq

/-- The pagination loop (src lines 185-274) over a script of server
responses: issue a request, stop on a server-returned empty batch
(src 200-202), otherwise process the batch and stop early when the cursor
passed the start bound (src 269-271); a raised transport/API error
propagates.  `scriptEnded` marks a run whose script supplied no response for
the next request the loop would issue. -/
def runLoop (cfg : Config) (st : St) : List Resp → St × StopReason
  | [] => (st, StopReason.scriptEnded)
  | resp :: rest =>
    let st1 := issueReq cfg st
    match resp with
    | Resp.err _ => (st1, StopReason.apiError)
    | Resp.ok rows_all =>
      if rows_all.isEmpty then (st1, StopReason.exhausted)
      else
        let st2 := stepBatch cfg st1 rows_all
        if earlyStopB cfg st2 then (st2, StopReason.earlyStop) else runLoop cfg st2 rest

/-- The observable outcome of one `dump_withdrawals` run. -/
structure RunOut where
  events : List FileEvent
  saved : Nat
  requests : Nat
  emitted : List (List Record)
  stop : StopReason

/-- src lines 140-281 (`dump_withdrawals`): open the output for a supported
format (src 174-179), run the loop inside `try`, and on every exit path of
the `try` block flush and close the handle in `finally` (src 276-279).
An unsupported format raises before the output is opened, so no file events
occur.  (Credential validation, src 159-163, precedes the open and is owned
by the excluded configuration collaborator.) -/
def dump_withdrawals (cfg : Config) (script : List Resp) : RunOut :=
  if cfg.fmt = "jsonl" ∨ cfg.fmt = "csv" then
    let r := runLoop cfg initSt script
    { events := FileEvent.opened :: r.1.events ++ [FileEvent.flushed, FileEvent.closed]
      saved := r.1.saved
      requests := r.1.requests
      emitted := r.1.emitted
      stop := r.2 }
  else
    { events := [], saved := 0, requests := 0, emitted := [], stop := StopReason.configError }

/-! ### Basic lemmas about the minimum timestamp of a batch -/

lemma foldl_min_le_init (l : List Int) : ∀ t : Int, l.foldl min t ≤ t := by
  induction l with
  | nil => intro t; exact le_refl t
  | cons a l ih =>
    intro t
    calc (a :: l).foldl min t = l.foldl min (min t a) := rfl
    _ ≤ min t a := ih (min t a)
    _ ≤ t := min_le_left t a

lemma foldl_min_le_mem (l : List Int) : ∀ (t x : Int), x ∈ l → l.foldl min t ≤ x := by
  induction l with
  | nil => intro t x hx; cases hx
  | cons a l ih =>
    intro t x hx
    rcases List.mem_cons.mp hx with h | h
    · calc (a :: l).foldl min t = l.foldl min (min t a) := rfl
      _ ≤ min t a := foldl_min_le_init l (min t a)
      _ ≤ a := min_le_right t a
      _ = x := h.symm
    · exact ih (min t a) x h

lemma le_foldl_min (l : List Int) : ∀ (t c : Int), c ≤ t → (∀ x ∈ l, c ≤ x) → c ≤ l.foldl min t := by
  induction l with
  | nil => intro t c h _; exact h
  | cons a l ih =>
    intro t c ht hl
    have ha : c ≤ a := hl a (List.mem_cons_self a l)
    exact ih (min t a) c (le_min ht ha) (fun x hx => hl x (List.mem_cons_of_mem a hx))

lemma minTs_le_of_mem {rows : List Record} {r : Record} (h : r ∈ rows) :
    minTs rows ≤ tsOf r := by
  cases rows with
  | nil => cases h
  | cons r0 rs =>
    show (rs.map tsOf).foldl min (tsOf r0) ≤ tsOf r
    rcases List.mem_cons.mp h with h | h
    · subst h; exact foldl_min_le_init (rs.map tsOf) (tsOf r)
    · exact foldl_min_le_mem (rs.map tsOf) (tsOf r0) (tsOf r) (List.mem_map_of_mem tsOf h)

lemma le_minTs {rows : List Record} {c : Int} (hne : rows ≠ [])
    (h : ∀ r ∈ rows, c ≤ tsOf r) : c ≤ minTs rows := by
  cases rows with
  | nil => exact absurd rfl hne
  | cons r0 rs =>
    show c ≤ (rs.map tsOf).foldl min (tsOf r0)
    refine le_foldl_min (rs.map tsOf) (tsOf r0) c (h r0 (List.mem_cons_self r0 rs)) ?_
    intro x hx
    rcases List.mem_map.mp hx with ⟨r, hr, rfl⟩
    exact h r (List.mem_cons_of_mem r0 hr)

/-! ### Unfolding and composition lemmas for the pagination loop -/

/-- One loop body applied after issuing the request. -/
def stepReq (cfg : Config) (st : St) (b : List Record) : St :=
  stepBatch cfg (issueReq cfg st) b

/-- The early-stop test never fires for batch `p` (either no start bound is
configured, or the updated cursor has not passed it). -/
def noEarlyStop (cfg : Config) (p : List Record) : Prop :=
  ∀ s : Int, cfg.startMs = some s → ¬ (minTs p - 1 < s)

lemma earlyStopB_step_false (cfg : Config) (st : St) (p : List Record)
    (h : noEarlyStop cfg p) : earlyStopB cfg (stepBatch cfg st p) = false := by
  have hc : (stepBatch cfg st p).afterCursor = some (minTs p - 1) := rfl
  unfold earlyStopB
  rw [hc]
  cases hs : cfg.startMs with
  | none => rfl
  | some s => exact decide_eq_false (h s hs)

lemma earlyStopB_step_true (cfg : Config) (st : St) (p : List Record) (X : Int)
    (hX : cfg.startMs = some X) (h : minTs p - 1 < X) :
    earlyStopB cfg (stepBatch cfg st p) = true := by
  have hc : (stepBatch cfg st p).afterCursor = some (minTs p - 1) := rfl
  unfold earlyStopB
  rw [hc, hX]
  exact decide_eq_true h

lemma runLoop_cons_ok (cfg : Config) (st : St) (x : Record) (xs : List Record)
    (rest : List Resp) :
    runLoop cfg st (Resp.ok (x :: xs) :: rest) =
      (if earlyStopB cfg (stepReq cfg st (x :: xs))
       then (stepReq cfg st (x :: xs), StopReason.earlyStop)
       else runLoop cfg (stepReq cfg st (x :: xs)) rest) := rfl

lemma runLoop_ok_front (cfg : Config) (P : List (List Record)) :
    ∀ (st : St) (rest : List Resp),
      (∀ p ∈ P, p ≠ []) → (∀ p ∈ P, noEarlyStop cfg p) →
      runLoop cfg st (P.map Resp.ok ++ rest) = runLoop cfg (P.foldl (stepReq cfg) st) rest := by
  induction P with
  | nil => intro st rest _ _; rfl
  | cons b bs ih =>
    intro st rest h1 h2
    have hb : b ≠ [] := h1 b (List.mem_cons_self b bs)
    obtain ⟨x, xs, rfl⟩ : ∃ x xs, b = x :: xs := by
      cases b with
      | nil => exact absurd rfl hb
      | cons x xs => exact ⟨x, xs, rfl⟩
    have hstop : earlyStopB cfg (stepReq cfg st (x :: xs)) = false :=
      earlyStopB_step_false cfg (issueReq cfg st) (x :: xs)
        (h2 (x :: xs) (List.mem_cons_self _ bs))
    have h1' : ∀ p ∈ bs, p ≠ [] := fun p hp => h1 p (List.mem_cons_of_mem _ hp)
    have h2' : ∀ p ∈ bs, noEarlyStop cfg p := fun p hp => h2 p (List.mem_cons_of_mem _ hp)
    calc runLoop cfg st (((x :: xs) :: bs).map Resp.ok ++ rest)
        = runLoop cfg (stepReq cfg st (x :: xs)) (bs.map Resp.ok ++ rest) := by
          rw [List.map_cons, List.cons_append, runLoop_cons_ok, hstop]
          simp
    _ = runLoop cfg (bs.foldl (stepReq cfg) (stepReq cfg st (x :: xs))) rest :=
          ih (stepReq cfg st (x :: xs)) rest h1' h2'
    _ = runLoop cfg (((x :: xs) :: bs).foldl (stepReq cfg) st) rest := rfl

lemma foldl_stepReq_requests (cfg : Config) (P : List (List Record)) :
    ∀ st : St, (P.foldl (stepReq cfg) st).requests = st.requests + P.length := by
  induction P with
  | nil => intro st; rfl
  | cons b bs ih =>
    intro st
    have hb : (stepReq cfg st b).requests = st.requests + 1 := rfl
    calc ((b :: bs).foldl (stepReq cfg) st).requests
        = (bs.foldl (stepReq cfg) (stepReq cfg st b)).requests := rfl
    _ = (stepReq cfg st b).requests + bs.length := ih (stepReq cfg st b)
    _ = st.requests + (b :: bs).length := by rw [hb]; simp [List.length_cons]; omega

lemma foldl_stepReq_emitted (cfg : Config) (P : List (List Record)) :
    ∀ st : St, (P.foldl (stepReq cfg) st).emitted = st.emitted ++ P.map (filteredBatch cfg) := by
  induction P with
  | nil => intro st; simp
  | cons b bs ih =>
    intro st
    have hb : (stepReq cfg st b).emitted = st.emitted ++ [filteredBatch cfg b] := rfl
    calc ((b :: bs).foldl (stepReq cfg) st).emitted
        = (bs.foldl (stepReq cfg) (stepReq cfg st b)).emitted := rfl
    _ = (stepReq cfg st b).emitted ++ bs.map (filteredBatch cfg) := ih (stepReq cfg st b)
    _ = st.emitted ++ (b :: bs).map (filteredBatch cfg) := by rw [hb]; simp

/-- Decidable companion of `noEarlyStop`, used to discharge hypotheses at
concrete inputs. -/
def noEarlyStopB (cfg : Config) (p : List Record) : Bool :=
  match cfg.startMs with
  | none => true
  | some s => decide (¬ (minTs p - 1 < s))

lemma noEarlyStop_of_B (cfg : Config) (p : List Record)
    (h : noEarlyStopB cfg p = true) : noEarlyStop cfg p := by
  intro s hs
  have h' := h
  unfold noEarlyStopB at h'
  rw [hs] at h'
  exact of_decide_eq_true h'

/-! ### Concrete records and configurations used by witnesses and
counterexamples -/

def recTs100 : Record := [("ts", "100")]
def recTs150 : Record := [("ts", "150")]
def recTs90 : Record := [("ts", "90")]
def recNoTs : Record := [("to", "x")]
def recAaa : Record := [("ts", "100"), ("to", "aaa")]
def recZzz : Record := [("ts", "50"), ("to", "zzz")]

def cfgPlainCsv : Config :=
  { fmt := "csv", ccy := none, startMs := none, endMs := none, addrSet := none }

def cfgStart100 : Config :=
  { fmt := "csv", ccy := none, startMs := some 100, endMs := none, addrSet := none }

def cfgAddrZzz : Config :=
  { fmt := "csv", ccy := none, startMs := none, endMs := none, addrSet := some ["zzz"] }

def cfgStart50 : Config :=
  { fmt := "csv", ccy := none, startMs := some 50, endMs := none, addrSet := none }

/-! ### Claim C1: cursor update and strict monotonicity -/

/-- C1: after processing a fetched nonempty unfiltered batch, the loop sets the
cursor to (minimum ts over the unfiltered batch) - 1; this is the `after`
parameter of the next request, and it is strictly less than every ts value of
the batch — for every configuration, hence regardless of the time/address
filtering applied for emission. -/
theorem c1_cursor_monotonic (cfg : Config) (st : St) (rows_all : List Record)
    (_h : rows_all ≠ []) :
    (stepBatch cfg st rows_all).afterCursor = some (minTs rows_all - 1)
    ∧ (buildParams cfg (stepBatch cfg st rows_all).afterCursor).after
        = some (toString (minTs rows_all - 1))
    ∧ ∀ r ∈ rows_all, minTs rows_all - 1 < tsOf r := by
  refine ⟨rfl, rfl, ?_⟩
  intro r hr
  have h1 : minTs rows_all ≤ tsOf r := minTs_le_of_mem hr
  omega

/-- Witness for C1 at a concrete one-record batch with ts 100. -/
theorem c1_witness :
    (stepBatch cfgPlainCsv initSt [recTs100]).afterCursor = some (minTs [recTs100] - 1)
    ∧ (buildParams cfgPlainCsv (stepBatch cfgPlainCsv initSt [recTs100]).afterCursor).after
        = some (toString (minTs [recTs100] - 1))
    ∧ ∀ r ∈ [recTs100], minTs [recTs100] - 1 < tsOf r :=
  c1_cursor_monotonic cfgPlainCsv initSt [recTs100] (by decide)

/-! ### Claim C2: exhaustion termination -/

/-- C2: when the server script consists of N nonempty pages followed by an
empty page, and no configured start bound cuts the traversal short on those
pages, the loop issues exactly N+1 requests and stops with exhaustion; every
one of the N pages is processed and emitted (time/address-filtered), so a
batch whose records are all removed by filtering is not treated as exhaustion
and still advances the traversal. -/
theorem c2_exhaustion_termination (cfg : Config) (P : List (List Record))
    (hne : ∀ p ∈ P, p ≠ []) (hns : ∀ p ∈ P, noEarlyStop cfg p) :
    (runLoop cfg initSt (P.map Resp.ok ++ [Resp.ok []])).2 = StopReason.exhausted
    ∧ (runLoop cfg initSt (P.map Resp.ok ++ [Resp.ok []])).1.requests = P.length + 1
    ∧ (runLoop cfg initSt (P.map Resp.ok ++ [Resp.ok []])).1.emitted
        = P.map (filteredBatch cfg) := by
  rw [runLoop_ok_front cfg P initSt [Resp.ok []] hne hns]
  have hterm : runLoop cfg (P.foldl (stepReq cfg) initSt) [Resp.ok []]
      = (issueReq cfg (P.foldl (stepReq cfg) initSt), StopReason.exhausted) := rfl
  rw [hterm]
  refine ⟨rfl, ?_, ?_⟩
  · have h1 : (issueReq cfg (P.foldl (stepReq cfg) initSt)).requests
        = (P.foldl (stepReq cfg) initSt).requests + 1 := rfl
    rw [h1, foldl_stepReq_requests]
    show initSt.requests + P.length + 1 = P.length + 1
    simp [initSt]
  · have h2 : (issueReq cfg (P.foldl (stepReq cfg) initSt)).emitted
        = (P.foldl (stepReq cfg) initSt).emitted := rfl
    rw [h2, foldl_stepReq_emitted]
    show initSt.emitted ++ P.map (filteredBatch cfg) = P.map (filteredBatch cfg)
    simp [initSt]

/-- Witness for C2: one page whose only record is removed by the address
filter, then an empty page — 2 requests, exhaustion, one emitted (empty)
filtered batch. -/
theorem c2_witness :
    (runLoop cfgAddrZzz initSt ([[recAaa]].map Resp.ok ++ [Resp.ok []])).2 = StopReason.exhausted
    ∧ (runLoop cfgAddrZzz initSt ([[recAaa]].map Resp.ok ++ [Resp.ok []])).1.requests
        = [[recAaa]].length + 1
    ∧ (runLoop cfgAddrZzz initSt ([[recAaa]].map Resp.ok ++ [Resp.ok []])).1.emitted
        = [[recAaa]].map (filteredBatch cfgAddrZzz) :=
  c2_exhaustion_termination cfgAddrZzz [[recAaa]] (by decide)
    (fun p hp => noEarlyStop_of_B cfgAddrZzz p (by rfl))

/-! ### Claim C3: start-bound early stop -/

/-- C3: with a start bound X configured, after a prefix of pages on which the
early-stop test never fires, a nonempty page q whose updated cursor
(min ts of the unfiltered q, minus 1) is below X ends the run: no further
requests are issued (the scripted `rest` is never consumed), the emitted
batches are exactly the filtered images of the pages up to and including q
(records with ts < X are dropped from emission), and the final cursor was
computed from the unfiltered q. -/
theorem c3_start_bound_early_stop (cfg : Config) (X : Int) (P : List (List Record))
    (q : List Record) (rest : List Resp)
    (hX : cfg.startMs = some X)
    (hne : ∀ p ∈ P, p ≠ []) (hns : ∀ p ∈ P, noEarlyStop cfg p)
    (hq : q ≠ []) (hcur : minTs q - 1 < X) :
    (runLoop cfg initSt (P.map Resp.ok ++ Resp.ok q :: rest)).2 = StopReason.earlyStop
    ∧ (runLoop cfg initSt (P.map Resp.ok ++ Resp.ok q :: rest)).1.requests = P.length + 1
    ∧ (runLoop cfg initSt (P.map Resp.ok ++ Resp.ok q :: rest)).1.emitted
        = (P ++ [q]).map (filteredBatch cfg)
    ∧ (runLoop cfg initSt (P.map Resp.ok ++ Resp.ok q :: rest)).1.afterCursor
        = some (minTs q - 1) := by
  obtain ⟨x, xs, rfl⟩ : ∃ x xs, q = x :: xs := by
    cases q with
    | nil => exact absurd rfl hq
    | cons x xs => exact ⟨x, xs, rfl⟩
  rw [runLoop_ok_front cfg P initSt (Resp.ok (x :: xs) :: rest) hne hns]
  have hstop : earlyStopB cfg (stepReq cfg (P.foldl (stepReq cfg) initSt) (x :: xs)) = true :=
    earlyStopB_step_true cfg (issueReq cfg (P.foldl (stepReq cfg) initSt)) (x :: xs) X hX hcur
  have heq : runLoop cfg (P.foldl (stepReq cfg) initSt) (Resp.ok (x :: xs) :: rest)
      = (stepReq cfg (P.foldl (stepReq cfg) initSt) (x :: xs), StopReason.earlyStop) := by
    rw [runLoop_cons_ok, hstop]
    simp
  rw [heq]
  refine ⟨rfl, ?_, ?_, rfl⟩
  · have h1 : (stepReq cfg (P.foldl (stepReq cfg) initSt) (x :: xs)).requests
        = (P.foldl (stepReq cfg) initSt).requests + 1 := rfl
    rw [h1, foldl_stepReq_requests]
    show initSt.requests + P.length + 1 = P.length + 1
    simp [initSt]
  · have h2 : (stepReq cfg (P.foldl (stepReq cfg) initSt) (x :: xs)).emitted
        = (P.foldl (stepReq cfg) initSt).emitted ++ [filteredBatch cfg (x :: xs)] := rfl
    rw [h2, foldl_stepReq_emitted]
    show initSt.emitted ++ P.map (filteredBatch cfg) ++ [filteredBatch cfg (x :: xs)]
        = (P ++ [x :: xs]).map (filteredBatch cfg)
    simp [initSt]

/-- Witness for C3: start bound 100, one in-window page (ts 150), then a page
with ts 90 whose cursor 89 is below the bound; a further scripted page is
never requested, and the ts-90 record is dropped from emission while having
determined the cursor. -/
theorem c3_witness :
    (runLoop cfgStart100 initSt
        ([[recTs150]].map Resp.ok ++ Resp.ok [recTs90] :: [Resp.ok [recTs150]])).2
      = StopReason.earlyStop
    ∧ (runLoop cfgStart100 initSt
        ([[recTs150]].map Resp.ok ++ Resp.ok [recTs90] :: [Resp.ok [recTs150]])).1.requests
      = [[recTs150]].length + 1
    ∧ (runLoop cfgStart100 initSt
        ([[recTs150]].map Resp.ok ++ Resp.ok [recTs90] :: [Resp.ok [recTs150]])).1.emitted
      = ([[recTs150]] ++ [[recTs90]]).map (filteredBatch cfgStart100)
    ∧ (runLoop cfgStart100 initSt
        ([[recTs150]].map Resp.ok ++ Resp.ok [recTs90] :: [Resp.ok [recTs150]])).1.afterCursor
      = some (minTs [recTs90] - 1) :=
  c3_start_bound_early_stop cfgStart100 100 [[recTs150]] [recTs90] [Resp.ok [recTs150]]
    rfl (by decide)
    (fun p hp => by
      have h := List.mem_singleton.mp hp
      subst h
      exact noEarlyStop_of_B cfgStart100 [recTs150] (by decide))
    (by decide) (by decide)

/-! ### Claim C10: records lacking the ts field -/

/-- C10: a record lacking the `ts` field is treated as timestamp 0; with a
positive start bound it is dropped by the time filter, its presence forces
the cursor computed from its (otherwise nonnegative-timestamped) batch to -1,
and the traversal stops right after that batch with an early stop, issuing no
further request. -/
theorem c10_missing_ts (cfg : Config) (st : St) (rows : List Record) (r0 : Record)
    (rest : List Resp) (s : Int)
    (hmem : r0 ∈ rows) (hnots : rlookup r0 "ts" = none)
    (hpos : ∀ r ∈ rows, 0 ≤ tsOf r)
    (hs : cfg.startMs = some s) (hspos : 0 < s) :
    tsOf r0 = 0
    ∧ r0 ∉ applyTimeFilter cfg.startMs rows
    ∧ minTs rows - 1 = -1
    ∧ (runLoop cfg st (Resp.ok rows :: rest)).2 = StopReason.earlyStop
    ∧ (runLoop cfg st (Resp.ok rows :: rest)).1.requests = st.requests + 1 := by
  have hts0 : tsOf r0 = 0 := by
    unfold tsOf rget
    rw [hnots]
    decide
  have hne : rows ≠ [] := List.ne_nil_of_mem hmem
  have hmin : minTs rows = 0 := by
    have h1 : minTs rows ≤ 0 := by
      have h := minTs_le_of_mem hmem
      rw [hts0] at h
      exact h
    have h2 : (0 : Int) ≤ minTs rows := le_minTs hne hpos
    omega
  obtain ⟨x, xs, rfl⟩ : ∃ x xs, rows = x :: xs := by
    cases rows with
    | nil => exact absurd rfl hne
    | cons x xs => exact ⟨x, xs, rfl⟩
  have hstop : earlyStopB cfg (stepReq cfg st (x :: xs)) = true :=
    earlyStopB_step_true cfg (issueReq cfg st) (x :: xs) s hs (by omega)
  have heq : runLoop cfg st (Resp.ok (x :: xs) :: rest)
      = (stepReq cfg st (x :: xs), StopReason.earlyStop) := by
    rw [runLoop_cons_ok, hstop]
    simp
  refine ⟨hts0, ?_, by omega, by rw [heq], by rw [heq]; rfl⟩
  · rw [hs]
    intro hmem'
    have h := (List.mem_filter.mp hmem').2
    have h' : s ≤ tsOf r0 := of_decide_eq_true h
    rw [hts0] at h'
    omega

/-- Witness for C10: a batch holding a ts-less record and a ts-100 record,
with start bound 50. -/
theorem c10_witness :
    tsOf recNoTs = 0
    ∧ recNoTs ∉ applyTimeFilter cfgStart50.startMs [recNoTs, recTs100]
    ∧ minTs [recNoTs, recTs100] - 1 = -1
    ∧ (runLoop cfgStart50 initSt (Resp.ok [recNoTs, recTs100] :: [])).2 = StopReason.earlyStop
    ∧ (runLoop cfgStart50 initSt (Resp.ok [recNoTs, recTs100] :: [])).1.requests
        = initSt.requests + 1 :=
  c10_missing_ts cfgStart50 initSt [recNoTs, recTs100] recNoTs [] 50
    (by decide) (by decide) (by decide) rfl (by decide)

/-! ### Lemmas about first-seen deduplication (`dict.fromkeys`) -/

lemma memB_iff (k : String) : ∀ l : List String, memB k l = true ↔ k ∈ l := by
  intro l
  induction l with
  | nil => simp [memB]
  | cons x xs ih => simp [memB, ih, List.mem_cons]

lemma dedupFirst_nodup : ∀ ys : List String, ys.Nodup →
    ∀ seen, dedupFirst seen ys = ys.filter (fun k => !memB k seen) := by
  intro ys
  induction ys with
  | nil => intro _ _; rfl
  | cons y ys ih =>
    intro hnd seen
    obtain ⟨hy, hnd'⟩ := List.nodup_cons.mp hnd
    cases hmem : memB y seen with
    | true =>
      simp [dedupFirst, hmem, List.filter_cons, ih hnd' seen]
    | false =>
      have hcong : ys.filter (fun k => !memB k (y :: seen)) = ys.filter (fun k => !memB k seen) := by
        apply List.filter_congr
        intro k hk
        have hky : (k == y) = false := by
          have hne : k ≠ y := fun e => hy (e ▸ hk)
          exact beq_eq_false_iff_ne.mpr hne
        simp [memB, hky]
      simp [dedupFirst, hmem, List.filter_cons, ih hnd' (y :: seen), hcong]

lemma dedupFirst_append_filter (base : List String) (hnd : base.Nodup) :
    ∀ (obs seen : List String),
      dedupFirst seen (obs ++ base)
        = dedupFirst seen obs ++ base.filter (fun k => !(memB k seen || memB k obs)) := by
  intro obs
  induction obs with
  | nil =>
    intro seen
    simp only [List.nil_append, dedupFirst]
    rw [dedupFirst_nodup base hnd seen]
    apply List.filter_congr
    intro k _
    simp [memB]
  | cons o os ih =>
    intro seen
    cases hmem : memB o seen with
    | true =>
      have hcong : base.filter (fun k => !memB k seen && !memB k os)
          = base.filter (fun k => !memB k seen && !memB k (o :: os)) := by
        apply List.filter_congr
        intro k _
        cases hko : (k == o) with
        | true =>
          have hk : k = o := eq_of_beq hko
          subst hk
          simp [memB, hmem]
        | false => simp [memB, hko]
      simp [List.cons_append, dedupFirst, hmem, ih seen, hcong]
    | false =>
      have hcong : base.filter (fun k => !memB k (o :: seen) && !memB k os)
          = base.filter (fun k => !memB k seen && !memB k (o :: os)) := by
        apply List.filter_congr
        intro k _
        simp only [memB]
        cases k == o <;> cases memB k seen <;> cases memB k os <;> rfl
      simp [List.cons_append, dedupFirst, hmem, ih (o :: seen), hcong]

/-! ### Claim C4: CSV header order -/

def recExtra : Record := [("extraField", "x")]

/-- Header order as the spec's sentence describes it: the fixed canonical
column list first, then the novel observed keys in first-seen order.  (This
definition follows the SPEC's words, for comparison with `deriveFieldOrder`,
which follows the source.) -/
def specCsvHeader (rows : List Record) : List String :=
  base_keys ++ dedupFirst [] ((observedKeys rows).filter (fun k => !memB k base_keys))

/-- Counterexample to C4: for a first batch holding a single record with the
single novel key "extraField", the header actually written by the run starts
with the observed key, not with the canonical list — it differs from the
spec's canonical-first ordered union. -/
theorem c4_counterexample :
    (runLoop cfgPlainCsv initSt [Resp.ok [recExtra]]).1.events.take 1
        = [FileEvent.wroteHeader (deriveFieldOrder [recExtra])]
    ∧ deriveFieldOrder [recExtra] ≠ specCsvHeader [recExtra] := by decide

/-- C4 amended: the derived header is the ordered union with the keys observed
in the first (filtered) batch FIRST, in first-seen order and deduplicated,
followed by the canonical columns not observed in that batch, in canonical
order. -/
theorem c4_amended_header_order (rows : List Record) :
    deriveFieldOrder rows
      = dedupFirst [] (observedKeys rows)
        ++ base_keys.filter (fun k => !memB k (observedKeys rows)) := by
  unfold deriveFieldOrder
  rw [dedupFirst_append_filter base_keys (by decide) (observedKeys rows) []]
  congr 1

/-! ### Claim C5: header written once -/

def isHeaderEv : FileEvent → Bool
  | FileEvent.wroteHeader _ => true
  | _ => false

/-- C5 (code bug): the header-writing block is gated on `saved == 0`
(src line 231), not on "no header written yet".  At this input the first
server batch is nonempty but fully removed by the address filter, so `saved`
stays 0 and the next batch creates a new `DictWriter` and writes the header a
second time — refuting "the header row is written exactly once per run ...
also when earlier server batches had all their records removed by filtering",
which is exactly the scenario the claim (and src's own "First page" comment)
intends to cover. -/
theorem c5_duplicate_header :
    filteredBatch cfgAddrZzz [recAaa] = []
    ∧ ((runLoop cfgAddrZzz initSt [Resp.ok [recAaa], Resp.ok [recZzz]]).1.events.countP
        isHeaderEv) = 2 := by decide

/-! ### Substring lemmas for the address filter -/

lemma prefB_iff : ∀ (n h : List Char), prefB n h = true ↔ ∃ q, h = n ++ q := by
  intro n
  induction n with
  | nil =>
    intro h
    simp only [prefB, List.nil_append]
    exact ⟨fun _ => ⟨h, rfl⟩, fun _ => trivial⟩
  | cons a as ih =>
    intro h
    cases h with
    | nil => simp [prefB]
    | cons b bs =>
      simp only [prefB, Bool.and_eq_true, beq_iff_eq, ih bs, List.cons_append]
      constructor
      · rintro ⟨rfl, q, rfl⟩
        exact ⟨q, rfl⟩
      · rintro ⟨q, hq⟩
        injection hq with h1 h2
        exact ⟨h1.symm, q, h2⟩

lemma substrB_iff : ∀ (n h : List Char), substrB n h = true ↔ ∃ p q, h = p ++ n ++ q := by
  intro n h
  induction h with
  | nil =>
    cases n with
    | nil =>
      simp only [substrB, List.isEmpty_nil]
      exact ⟨fun _ => ⟨[], [], rfl⟩, fun _ => trivial⟩
    | cons c cs => simp [substrB]
  | cons c t ih =>
    simp only [substrB, Bool.or_eq_true, prefB_iff, ih]
    constructor
    · rintro (⟨q, hq⟩ | ⟨p, q, rfl⟩)
      · exact ⟨[], q, hq⟩
      · exact ⟨c :: p, q, rfl⟩
    · rintro ⟨p, q, hq⟩
      cases p with
      | nil =>
        left
        exact ⟨q, hq⟩
      | cons x p' =>
        right
        injection hq with h1 h2
        exact ⟨p', q, h2⟩

lemma lowerStr_ne_empty : ∀ s : String, s ≠ "" → lowerStr s ≠ "" := by
  intro s h he
  apply h
  cases s with
  | mk l =>
    have hd : l.map Char.toLower = [] := congrArg String.data he
    have hl : l = [] := by
      cases l with
      | nil => rfl
      | cons c cs => simp at hd
    rw [hl]

/-! ### Claim C8: address filter -/

def rec0xABC : Record := [("to", "0xABC123")]

lemma keep_iff_row_has_addr (aset : List String) (r : Record) (hne : aset ≠ []) :
    applyAddrFilter (some aset) [r] = [r]
      ↔ row_has_addr (aset.map lowerStr) r = true := by
  obtain ⟨a, as, rfl⟩ : ∃ a as, aset = a :: as := by
    cases aset with
    | nil => exact absurd rfl hne
    | cons a as => exact ⟨a, as, rfl⟩
  show List.filter (fun x => row_has_addr ((a :: as).map lowerStr) x) [r] = [r] ↔ _
  cases hp : row_has_addr ((a :: as).map lowerStr) r with
  | true =>
    rw [List.map_cons] at hp
    simp [List.filter_cons, hp]
  | false =>
    rw [List.map_cons] at hp
    simp [List.filter_cons, hp]

lemma row_has_addr_iff (aset : List String) (r : Record) :
    row_has_addr (aset.map lowerStr) r = true
      ↔ ∃ a ∈ aset, a ≠ ""
          ∧ ∃ p q, (concatAddr r).data = p ++ (lowerStr a).data ++ q := by
  unfold row_has_addr
  rw [List.any_eq_true]
  constructor
  · rintro ⟨a', ha', htr⟩
    rcases List.mem_map.mp ha' with ⟨a, ha, rfl⟩
    rw [Bool.and_eq_true] at htr
    obtain ⟨hne', hsub⟩ := htr
    refine ⟨a, ha, ?_, (substrB_iff _ _).mp hsub⟩
    intro hae
    subst hae
    exact absurd hne' (by decide)
  · rintro ⟨a, ha, hane, p, q, hpq⟩
    refine ⟨lowerStr a, List.mem_map_of_mem lowerStr ha, ?_⟩
    rw [Bool.and_eq_true]
    refine ⟨?_, (substrB_iff _ _).mpr ⟨p, q, hpq⟩⟩
    have hb : (lowerStr a == "") = false :=
      beq_eq_false_iff_ne.mpr (lowerStr_ne_empty a hane)
    simp [hb]

/-- Counterexample to C8: the filter set containing only the empty string is
nonempty, and the empty string is (vacuously) a substring of the lowercased
field concatenation of every record, so the claim says the record is kept;
but the code's `a and a in s_all` test skips empty entries (src line 225) and
the record is dropped. -/
theorem c8_counterexample :
    applyAddrFilter (some [""]) [rec0xABC] = []
    ∧ (∃ p q, (concatAddr rec0xABC).data = p ++ (lowerStr "").data ++ q) := by
  refine ⟨by decide, ⟨[], (concatAddr rec0xABC).data, by decide⟩⟩

/-- C8 amended: with a present nonempty filter set, a record is kept if and
only if some NON-EMPTY entry of the set is, case-insensitively (both the
entry and the field concatenation are lowercased), a contiguous substring of
the concatenation of the record's address-bearing fields; an absent or empty
filter set keeps every record. -/
theorem c8_amended_address_filter :
    (∀ (aset : List String) (r : Record), aset ≠ [] →
      (applyAddrFilter (some aset) [r] = [r] ↔
        ∃ a ∈ aset, a ≠ ""
          ∧ ∃ p q, (concatAddr r).data = p ++ (lowerStr a).data ++ q))
    ∧ (∀ rows, applyAddrFilter none rows = rows)
    ∧ (∀ rows, applyAddrFilter (some []) rows = rows) :=
  ⟨fun aset r hne => (keep_iff_row_has_addr aset r hne).trans (row_has_addr_iff aset r),
   fun _ => rfl, fun _ => rfl⟩

/-- Witness for C8 (amended) at the spec's own test vector: entry "abc1"
keeps the record whose destination address is "0xABC123". -/
theorem c8_witness :
    applyAddrFilter (some ["abc1"]) [rec0xABC] = [rec0xABC] :=
  (c8_amended_address_filter.1 ["abc1"] rec0xABC (by decide)).mpr
    ⟨"abc1", by decide, by decide, "0x".data, "23     ".data, by decide⟩

/-! ### Claim C9: output handle released on every exit path -/

/-- C9: whenever the output file was opened (i.e. the format is one of the two
supported ones), the run's file-event trace is exactly the open, the loop's
write events, then a flush and a close — on every exit path, including a
fatal error raised mid-run — so the trace ends with the close and every row
written before the failure point is in the trace before it. -/
theorem c9_resource_release (cfg : Config) (script : List Resp)
    (h : cfg.fmt = "csv" ∨ cfg.fmt = "jsonl") :
    (dump_withdrawals cfg script).events
        = FileEvent.opened :: (runLoop cfg initSt script).1.events
          ++ [FileEvent.flushed, FileEvent.closed]
    ∧ (dump_withdrawals cfg script).events.getLast? = some FileEvent.closed
    ∧ ∀ e ∈ (runLoop cfg initSt script).1.events,
        e ∈ (dump_withdrawals cfg script).events := by
  have hcond : cfg.fmt = "jsonl" ∨ cfg.fmt = "csv" := h.symm
  have hev : (dump_withdrawals cfg script).events
      = FileEvent.opened :: (runLoop cfg initSt script).1.events
        ++ [FileEvent.flushed, FileEvent.closed] := by
    unfold dump_withdrawals
    rw [if_pos hcond]
  refine ⟨hev, ?_, ?_⟩
  · rw [hev]
    rw [show FileEvent.opened :: (runLoop cfg initSt script).1.events
          ++ [FileEvent.flushed, FileEvent.closed]
        = (FileEvent.opened :: (runLoop cfg initSt script).1.events
            ++ [FileEvent.flushed]) ++ [FileEvent.closed] from by simp]
    exact List.getLast?_concat _
  · intro e he
    rw [hev]
    exact List.mem_cons_of_mem _ (List.mem_append_left _ he)

/-- Witness for C9: a run that writes one page and then hits a fatal API
error; the trace still ends with flush and close. -/
theorem c9_witness :
    (dump_withdrawals cfgPlainCsv [Resp.ok [recTs100], Resp.err "OKX error"]).events
        = FileEvent.opened
          :: (runLoop cfgPlainCsv initSt [Resp.ok [recTs100], Resp.err "OKX error"]).1.events
          ++ [FileEvent.flushed, FileEvent.closed]
    ∧ (dump_withdrawals cfgPlainCsv [Resp.ok [recTs100], Resp.err "OKX error"]).events.getLast?
        = some FileEvent.closed
    ∧ ∀ e ∈ (runLoop cfgPlainCsv initSt [Resp.ok [recTs100], Resp.err "OKX error"]).1.events,
        e ∈ (dump_withdrawals cfgPlainCsv [Resp.ok [recTs100], Resp.err "OKX error"]).events :=
  c9_resource_release cfgPlainCsv [Resp.ok [recTs100], Resp.err "OKX error"] (Or.inl rfl)

/-! ### Claim C6: transport retry policy

The retry executor itself lives in the `urllib3` dependency
(`Retry`/`HTTPAdapter`), not in this repository; only its configuration is
repository code.  The configuration is embedded literally
(`sessionRetries`, src lines 79-84) and the executor is modelled from the
spec's words ("up to 10 attempts total per request; exponential backoff
starting at 0.5 time-units, doubling each attempt, applied only for
retryable responses or connection-level failures; non-retryable status codes
fail immediately"), parameterised by that configuration. -/

structure RetryPolicy where
  total : Nat
  backoffFactor : ℚ
  statusForcelist : List Nat
deriving DecidableEq

/-- src lines 79-84: `Retry(total=10, backoff_factor=0.5,
status_forcelist=(429, 500, 502, 503, 504), allowed_methods=["GET"])` —
mounted on the session for every (GET) request of the run. -/
def sessionRetries : RetryPolicy :=
  { total := 10, backoffFactor := (1 : ℚ)/2, statusForcelist := [429, 500, 502, 503, 504] }

/-- One transport-level outcome of an attempt: an HTTP status, or a
connection-level failure. -/
inductive HttpResp where
  | status (code : Nat)
  | connFail

/-- A response is retried exactly when it is a connection failure or its
status is in the configured forcelist. -/
def isRetryableResp (pol : RetryPolicy) : HttpResp → Bool
  | HttpResp.status c => pol.statusForcelist.contains c
  | HttpResp.connFail => true

structure RetryTrace where
  attempts : Nat
  sleeps : List ℚ
  fatal : Bool

/-- Modelled from the spec: the retry loop of the `urllib3` dependency.
`attempt` numbers the attempts from 0, `rem` is the remaining attempt
budget; a retryable failure with budget left sleeps
`backoffFactor * 2 ^ attempt` (0.5, 1, 2, ... — doubling) and tries again; a
retryable failure on the last budgeted attempt ends fatally; a non-retryable
response ends the loop immediately after the current attempt. -/
def retryGo (pol : RetryPolicy) (server : Nat → HttpResp) :
    Nat → Nat → List ℚ → RetryTrace
  | attempt, 0, sleeps => { attempts := attempt, sleeps := sleeps, fatal := true }
  | attempt, rem + 1, sleeps =>
    if isRetryableResp pol (server attempt) then
      (if rem = 0 then { attempts := attempt + 1, sleeps := sleeps, fatal := true }
       else retryGo pol server (attempt + 1) rem
              (sleeps ++ [pol.backoffFactor * 2 ^ attempt]))
    else { attempts := attempt + 1, sleeps := sleeps, fatal := false }

/-- One logical request executed under the policy against a scripted server. -/
def retryRequest (pol : RetryPolicy) (server : Nat → HttpResp) : RetryTrace :=
  retryGo pol server 0 pol.total []

/-- The retryable status codes as claim C6 states them ("HTTP 429 or a
retryable 5xx (502/503/504)"). -/
def claimRetryableStatuses : List Nat := [429, 502, 503, 504]

lemma retryGo_not_retryable (pol : RetryPolicy) (server : Nat → HttpResp)
    (attempt rem : Nat) (sleeps : List ℚ)
    (h : isRetryableResp pol (server attempt) = false) :
    retryGo pol server attempt (rem + 1) sleeps
      = { attempts := attempt + 1, sleeps := sleeps, fatal := false } := by
  simp [retryGo, h]

lemma retryGo_all_retryable (pol : RetryPolicy) (server : Nat → HttpResp)
    (hall : ∀ n, isRetryableResp pol (server n) = true) :
    ∀ (rem attempt : Nat) (sleeps : List ℚ), rem ≠ 0 →
      retryGo pol server attempt rem sleeps
        = { attempts := attempt + rem,
            sleeps := sleeps
              ++ (List.range (rem - 1)).map (fun k => pol.backoffFactor * 2 ^ (attempt + k)),
            fatal := true } := by
  intro rem
  induction rem with
  | zero => intro attempt sleeps h; exact absurd rfl h
  | succ rem ih =>
    intro attempt sleeps _
    cases rem with
    | zero => simp [retryGo, hall attempt]
    | succ rem' =>
      rw [show retryGo pol server attempt (rem' + 1 + 1) sleeps
            = retryGo pol server (attempt + 1) (rem' + 1)
                (sleeps ++ [pol.backoffFactor * 2 ^ attempt]) from by
          simp [retryGo, hall attempt]]
      rw [ih (attempt + 1) (sleeps ++ [pol.backoffFactor * 2 ^ attempt]) (Nat.succ_ne_zero rem')]
      have hsl : (sleeps ++ [pol.backoffFactor * 2 ^ attempt])
            ++ (List.range (rem' + 1 - 1)).map
                (fun k => pol.backoffFactor * 2 ^ (attempt + 1 + k))
          = sleeps
            ++ (List.range (rem' + 1 + 1 - 1)).map
                (fun k => pol.backoffFactor * 2 ^ (attempt + k)) := by
        rw [List.append_assoc]
        congr 1
        rw [show rem' + 1 + 1 - 1 = rem' + 1 from rfl, show rem' + 1 - 1 = rem' from rfl]
        have htail : (List.range rem').map
              (fun k => pol.backoffFactor * 2 ^ (attempt + 1 + k))
            = (List.range rem').map
              ((fun k => pol.backoffFactor * 2 ^ (attempt + k)) ∘ Nat.succ) := by
          apply List.map_congr_left
          intro k _
          show pol.backoffFactor * 2 ^ (attempt + 1 + k)
              = pol.backoffFactor * 2 ^ (attempt + Nat.succ k)
          have h2 : attempt + 1 + k = attempt + Nat.succ k := by omega
          rw [h2]
        rw [List.range_succ_eq_map, List.map_cons, List.map_map, List.singleton_append,
          htail, Nat.add_zero]
      rw [hsl]
      have hat : attempt + 1 + (rem' + 1) = attempt + (rem' + 1 + 1) := by omega
      rw [hat]

/-- Counterexample to C6: the claim's retryable set excludes 500 ("429 or a
retryable 5xx (502/503/504)") and says other statuses fail immediately; but
the configured forcelist contains 500, so a server answering 500 on every
attempt is retried until the budget is spent and ends fatally.  (Conversely a
constant 501 — a 5xx — fails after a single attempt.) -/
theorem c6_counterexample :
    (retryRequest sessionRetries (fun _ => HttpResp.status 500)).attempts = 10
    ∧ (retryRequest sessionRetries (fun _ => HttpResp.status 500)).fatal = true
    ∧ claimRetryableStatuses.contains 500 = false
    ∧ (retryRequest sessionRetries (fun _ => HttpResp.status 501)).attempts = 1
    ∧ (retryRequest sessionRetries (fun _ => HttpResp.status 501)).fatal = false := by
  refine ⟨?_, ?_, by decide, ?_, ?_⟩ <;>
    first
      | rw [show retryRequest sessionRetries (fun _ => HttpResp.status 500)
              = retryGo sessionRetries (fun _ => HttpResp.status 500) 0 10 [] from rfl,
            retryGo_all_retryable sessionRetries _ (fun n => by decide) 10 0 [] (by decide)]
      | rw [show retryRequest sessionRetries (fun _ => HttpResp.status 501)
              = retryGo sessionRetries (fun _ => HttpResp.status 501) 0 (9 + 1) [] from rfl,
            retryGo_not_retryable sessionRetries _ 0 9 [] (by decide)]

/-- C6 amended: the transport retries exactly the configured statuses
429, 500, 502, 503, 504 and connection-level failures, with exponential
backoff `0.5 * 2^k` (doubling from 0.5) between consecutive attempts, and
spends the configured total budget of 10 attempts before ending fatally when
the failure persists; a status outside the forcelist ends the request
immediately after one attempt, non-fatally at the transport layer. -/
theorem c6_amended_retry_policy :
    ((retryRequest sessionRetries (fun _ => HttpResp.status 503)).attempts = 10
      ∧ (retryRequest sessionRetries (fun _ => HttpResp.status 503)).fatal = true
      ∧ (retryRequest sessionRetries (fun _ => HttpResp.status 503)).sleeps
          = (List.range 9).map (fun k => sessionRetries.backoffFactor * 2 ^ k)
      ∧ (retryRequest sessionRetries (fun _ => HttpResp.connFail)).attempts = 10)
    ∧ (∀ c : Nat, sessionRetries.statusForcelist.contains c = false →
        (retryRequest sessionRetries (fun _ => HttpResp.status c)).attempts = 1
        ∧ (retryRequest sessionRetries (fun _ => HttpResp.status c)).fatal = false) := by
  constructor
  · rw [show retryRequest sessionRetries (fun _ => HttpResp.status 503)
          = retryGo sessionRetries (fun _ => HttpResp.status 503) 0 10 [] from rfl,
        retryGo_all_retryable sessionRetries _ (fun n => by decide) 10 0 [] (by decide),
        show retryRequest sessionRetries (fun _ => HttpResp.connFail)
          = retryGo sessionRetries (fun _ => HttpResp.connFail) 0 10 [] from rfl,
        retryGo_all_retryable sessionRetries _ (fun n => by decide) 10 0 [] (by decide)]
    refine ⟨rfl, rfl, ?_, rfl⟩
    simp
  · intro c hc
    have hr : isRetryableResp sessionRetries (HttpResp.status c) = false := hc
    rw [show retryRequest sessionRetries (fun _ => HttpResp.status c)
          = retryGo sessionRetries (fun _ => HttpResp.status c) 0 (9 + 1) [] from rfl,
        retryGo_not_retryable sessionRetries _ 0 9 [] hr]
    exact ⟨rfl, rfl⟩

/-- Witness for the amended C6: a 404 is not in the forcelist and is not
retried. -/
theorem c6_witness :
    (retryRequest sessionRetries (fun _ => HttpResp.status 404)).attempts = 1
    ∧ (retryRequest sessionRetries (fun _ => HttpResp.status 404)).fatal = false :=
  c6_amended_retry_policy.2 404 (by decide)

/-! ### Claim C7: timestamp and signature across transport retries

`okx_get` (src lines 93-114) reads the clock once (line 100), signs once
(line 101), fixes the headers (lines 103-108) and performs a single
`session.get` (line 109); the bounded retries configured in `build_session`
happen inside that call, and the HTTP adapter re-sends the identical prepared
request — the same headers — on every retry attempt.  The HMAC-SHA256/Base64
digest of `sign` (src lines 67-74) is kept abstract as the parameter
`hmacB64`; the claims here depend only on the arguments it receives. -/

/-- src line 72: the signed message `timestamp + method + requestPath + body`. -/
def signMessage (timestamp method requestPath body : String) : String :=
  timestamp ++ method ++ requestPath ++ body

/-- src lines 67-74: `sign` = Base64(HMAC_SHA256(message, secret)), with the
digest-and-encode step abstracted as `hmacB64`. -/
def signWith (hmacB64 : String → String → String)
    (secret timestamp method requestPath body : String) : String :=
  hmacB64 secret (signMessage timestamp method requestPath body)

/-- The authentication headers of one logical request. -/
structure Headers where
  accessKey : String
  accessSign : String
  accessTimestamp : String
  accessPassphrase : String
deriving DecidableEq

/-- src lines 96-97: the request path includes the query string when present. -/
def requestPathOf (path query : String) : String :=
  path ++ (if query = "" then "" else "?" ++ query)

/-- src lines 100-108: the timestamp is read once (`iso_utc_now_ms`, modelled
as the input `nowTs`), the signature computed from it, and the four
authentication headers fixed, all before the single `session.get` call. -/
def okx_get_headers (hmacB64 : String → String → String)
    (key secret passphrase path query nowTs : String) : Headers :=
  { accessKey := key
    accessSign := signWith hmacB64 secret nowTs "GET" (requestPathOf path query) ""
    accessTimestamp := nowTs
    accessPassphrase := passphrase }

/-- The headers sent on each of the n transport-level attempts of one logical
request: the prepared request is re-sent unchanged (requests/urllib3
semantics for the retries configured at src line 85). -/
def attemptHeaders (hdrs : Headers) (n : Nat) : List Headers :=
  List.replicate n hdrs

lemma replicate_getElem? {α : Type} (a : α) : ∀ (n i : Nat), i < n →
    (List.replicate n a)[i]? = some a := by
  intro n i h
  have hlen : i < (List.replicate n a).length := by simpa using h
  rw [List.getElem?_eq_getElem hlen, List.getElem_replicate]

/-- A concrete digest stand-in for the counterexample. -/
def hmacDemo : String → String → String := fun s m => s ++ "#" ++ m

def hdrsDemo : Headers :=
  okx_get_headers hmacDemo "key" "secret" "pass"
    "/api/v5/asset/withdrawal-history" "limit=100" "2024-01-01T00:00:00.000Z"

/-- Counterexample to C7: on a logical request whose transport layer makes two
attempts, the timestamp and the signature sent on the second (retry) attempt
are exactly the ones sent on the first — the claim says they are never
reused on a subsequent retry attempt. -/
theorem c7_counterexample :
    ((attemptHeaders hdrsDemo 2)[0]?).map Headers.accessTimestamp
        = ((attemptHeaders hdrsDemo 2)[1]?).map Headers.accessTimestamp
    ∧ ((attemptHeaders hdrsDemo 2)[0]?).map Headers.accessSign
        = ((attemptHeaders hdrsDemo 2)[1]?).map Headers.accessSign
    ∧ ((attemptHeaders hdrsDemo 2)[0]?).map Headers.accessTimestamp
        = some "2024-01-01T00:00:00.000Z" :=
  ⟨rfl, rfl, rfl⟩

/-- C7 amended: the ISO-8601 UTC millisecond timestamp is read and the
signature computed exactly once per logical request, before the single
`session.get` call, and the identical timestamp and signature are sent on
every transport-level retry attempt of that request. -/
theorem c7_amended_signature_reuse (hmacB64 : String → String → String)
    (key secret passphrase path query nowTs : String) (n i : Nat) (hi : i < n) :
    (attemptHeaders (okx_get_headers hmacB64 key secret passphrase path query nowTs) n)[i]?
        = some (okx_get_headers hmacB64 key secret passphrase path query nowTs)
    ∧ (okx_get_headers hmacB64 key secret passphrase path query nowTs).accessTimestamp = nowTs
    ∧ (okx_get_headers hmacB64 key secret passphrase path query nowTs).accessSign
        = hmacB64 secret (signMessage nowTs "GET" (requestPathOf path query) "") :=
  ⟨replicate_getElem? _ n i hi, rfl, rfl⟩

/-- Witness for the amended C7 at the demo instance, attempt 1 of 2. -/
theorem c7_witness :
    (attemptHeaders (okx_get_headers hmacDemo "key" "secret" "pass"
        "/api/v5/asset/withdrawal-history" "limit=100" "2024-01-01T00:00:00.000Z") 2)[1]?
        = some (okx_get_headers hmacDemo "key" "secret" "pass"
            "/api/v5/asset/withdrawal-history" "limit=100" "2024-01-01T00:00:00.000Z")
    ∧ (okx_get_headers hmacDemo "key" "secret" "pass"
        "/api/v5/asset/withdrawal-history" "limit=100"
        "2024-01-01T00:00:00.000Z").accessTimestamp = "2024-01-01T00:00:00.000Z"
    ∧ (okx_get_headers hmacDemo "key" "secret" "pass"
        "/api/v5/asset/withdrawal-history" "limit=100"
        "2024-01-01T00:00:00.000Z").accessSign
        = hmacDemo "secret" (signMessage "2024-01-01T00:00:00.000Z" "GET"
            (requestPathOf "/api/v5/asset/withdrawal-history" "limit=100") "") :=
  c7_amended_signature_reuse hmacDemo "key" "secret" "pass"
    "/api/v5/asset/withdrawal-history" "limit=100" "2024-01-01T00:00:00.000Z" 2 1 (by decide)

end OkxDump
